import Mathlib

/-!
Verification of the Sevpy staged-install pipeline and version registry.

This file shallowly embeds the transactional install pipeline of
`src/sevpy/libs/installer.py` (collision check, staged install, staging
verification, commit, manifest writing) and the installed-version registry of
`src/sevpy/sevpy.py` (`find_installed_versions`, `remove_broken`).

Modelling conventions:
- Filesystem trees are finite enumerations (`Tree`) of entries relative to a
  root, in the order `Path.rglob("*")` yields them.
- The mutable filesystem facts the pipeline reads and writes are collected in
  an explicit state record (`FsState`) threaded through each operation; a
  Python function that raises `InstallAbort` returns `Except.error` paired
  with the state as mutated up to the raise.
- Outcomes of external effects (subprocess runs, `mkdir`, `rename`,
  `shutil.rmtree`, per-candidate interpreter runs) are supplied by explicit
  environment records, one field per effect, so that every code path of the
  source is reachable in the model.  `os.rename` is atomic at the OS level,
  so a failed rename is modelled as leaving the state unchanged.
- Python string operations are re-implemented over `List Char`
  (`str_starts` for `str.startswith`, `str_in` for the `in` substring test,
  `strip_str` for `str.strip`, `join_sep` for `str.join`) so every
  definition evaluates by kernel reduction.
-/

namespace Sevpy

/-- The `InstallAbort` exception of `installer.py`, carrying its message. -/
structure InstallAbort where
  msg : String
  deriving DecidableEq, Repr

/-- List-of-characters test: first list is a leading segment of the second.
Backs the model of Python `str.startswith`. -/
def chars_le : List Char → List Char → Bool
  | [], _ => true
  | _ :: _, [] => false
  | a :: as, b :: bs => a == b && chars_le as bs

/-- List-of-characters test: first list occurs contiguously in the second.
Backs the model of the Python substring operator `in`. -/
def chars_infix (needle : List Char) : List Char → Bool
  | [] => needle.isEmpty
  | c :: rest => chars_le needle (c :: rest) || chars_infix needle rest

/-- Model of Python `s.startswith(p)`. -/
def str_starts (s p : String) : Bool := chars_le p.data s.data

/-- Model of Python `s.endswith(p)`. -/
def str_ends (s p : String) : Bool := chars_le p.data.reverse s.data.reverse

/-- Model of the Python substring test `needle in hay`. -/
def str_in (needle hay : String) : Bool := chars_infix needle.data hay.data

/-- Whitespace classification used by the model of `str.strip()`. -/
def is_space (c : Char) : Bool := c == ' ' || c == '\t' || c == '\n' || c == '\r'

/-- Model of Python `s.strip()`: drop whitespace from both ends. -/
def strip_str (s : String) : String :=
  ⟨((s.data.dropWhile is_space).reverse.dropWhile is_space).reverse⟩

/-- Model of Python `sep.join(parts)`. -/
def join_sep (sep : String) : List String → String
  | [] => ""
  | [x] => x
  | x :: y :: xs => x ++ sep ++ join_sep sep (y :: xs)

/-- `self.prefix_name = f"python-{version}"` (`installer.py`, line 18). -/
def prefix_name (version : String) : String := "python-" ++ version

/-- `self.install_version_dir = Path.home() / ".local" / "opt" / prefix_name`
(`installer.py`, line 22), with `home` the home-directory path. -/
def install_version_dir (home version : String) : String :=
  home ++ "/.local/opt/" ++ prefix_name version

/-- `self.staging_dir` (`installer.py`, lines 24-30): the disposable staging
root for the given version. -/
def staging_dir (home version : String) : String :=
  home ++ "/.cache/python-installer/stage/" ++ prefix_name version

/-- `self.log_dir` (`installer.py`, lines 31-37). -/
def log_dir (home version : String) : String :=
  home ++ "/.cache/sevpy/logs/" ++ prefix_name version

/-- `self.manifest_path = self.install_version_dir / ".install-manifest"`
(`installer.py`, line 40). -/
def manifest_path (home version : String) : String :=
  install_version_dir home version ++ "/.install-manifest"

/-- `staging_dir / install_version_dir.relative_to("/")` (`installer.py`,
lines 185, 233, 269).  For an absolute `home`, stripping the leading slash
of `install_version_dir` and rejoining under `staging_dir` is plain string
concatenation, since the dropped slash reappears as the join separator. -/
def staged_prefix_path (home version : String) : String :=
  staging_dir home version ++ install_version_dir home version

/-- Kind of a directory entry, as distinguished by `pathlib`
(`is_file()` / `is_symlink()` / directory). -/
inductive FKind
  | file
  | symlink
  | dir
  deriving DecidableEq, Repr

/-- One entry of a directory tree as enumerated by `Path.rglob("*")`: its
path relative to the tree root, as components, and its kind. -/
structure Node where
  rel : List String
  kind : FKind
  deriving DecidableEq, Repr

/-- A directory tree: the finite list of entries `Path.rglob("*")` yields,
in enumeration order. -/
abbrev Tree := List Node

/-- The filesystem facts the installer reads and writes: whether the build
`Makefile` exists, whether the staging root directory exists, the contents
of the staged prefix (`none` when absent), the contents of the permanent
version prefix (`none` when absent), and the text last written to the
install manifest. -/
structure FsState where
  makefile_exists : Bool
  staging_root_exists : Bool
  staged : Option Tree
  installed : Option Tree
  manifest_text : Option String
  deriving DecidableEq, Repr

/-- `self.manifest_path.exists()` over a modelled prefix tree: some entry
sits at the relative path `.install-manifest`. -/
def has_manifest (t : Tree) : Bool :=
  t.any (fun n => n.rel == [".install-manifest"])

/-- `Installer.check_prefix_collision` (`installer.py`, lines 68-79): abort
when the permanent version directory already exists, with distinct messages
for managed (manifest present) and unmanaged directories.  The source only
raises here; it performs no write, so no state is threaded. -/
def check_prefix_collision (home version : String) (s : FsState) :
    Except InstallAbort Unit :=
  match s.installed with
  | none => .ok ()
  | some t =>
    if has_manifest t then
      .error ⟨"Python " ++ version ++ " is already installed at "
        ++ install_version_dir home version⟩
    else
      .error ⟨"Installation directory exists but is unmanaged: "
        ++ install_version_dir home version⟩

/-- Regex `^_tkinter.*\.so$` of `installer.py`, line 189, applied to a file
name. -/
def tk_module (name : String) : Bool :=
  str_starts name "_tkinter" && str_ends name ".so"

/-- The Tk-stripping pass of `staged_install` (`installer.py`, lines
182-195) combined with `find_files` of `path_utils.py`: symlinks are
skipped (`follow_symlinks=False`), and matching regular files are removed. -/
def strip_tk (t : Tree) : Tree :=
  t.filter (fun n =>
    !(n.kind == FKind.file && (n.rel.getLast?.map tk_module).getD false))

/-- External outcomes consumed by `staged_install`: whether
`staging_dir.mkdir(parents=True)` succeeds, whether
`make altinstall DESTDIR=...` exits zero, and the tree it deposits under
the staged prefix when it does. -/
structure StageEnv where
  mkdirOk : Bool
  installRunOk : Bool
  installedTree : Tree
  deriving DecidableEq, Repr

/-- `Installer.staged_install` (`installer.py`, lines 154-195): Makefile
sanity check, staging-existence guard, staging-directory creation, the
logged `make altinstall` step, and the optional Tk strip. -/
def staged_install (home version : String) (env : StageEnv) (enable_tk : Bool)
    (s : FsState) : Except InstallAbort Unit × FsState :=
  if s.makefile_exists = false then
    (.error ⟨"Makefile missing — did you run configure()?"⟩, s)
  else if s.staging_root_exists then
    (.error ⟨"Staging directory already exists: " ++ staging_dir home version⟩, s)
  else if env.mkdirOk = false then
    (.error ⟨"Cannot create staging directory: " ++ staging_dir home version⟩, s)
  else
    let s1 : FsState := { s with staging_root_exists := true }
    if env.installRunOk = false then
      (.error ⟨"Command failed: make altinstall DESTDIR=" ++ staging_dir home version
        ++ "\nSee log: " ++ log_dir home version ++ "/install.log"⟩, s1)
    else
      (.ok (), { s1 with
        staged := some (if enable_tk then env.installedTree
          else strip_tk env.installedTree) })

/-- One `python3.*` candidate of the binary scan: its path (the sort key),
whether `os.access(candidate, os.X_OK)` holds, the `(stdout, stderr)` of its
version-report run when the subprocess call returned, and the exception
message when it raised (`runOut = none`). -/
structure Candidate where
  name : String
  executable : Bool
  runOut : Option (String × String)
  errMsg : String
  deriving DecidableEq, Repr

/-- `result.stdout.strip() or result.stderr.strip()` (`installer.py`,
line 225): Python `or` keeps the first operand unless it is empty. -/
def version_output (out err : String) : String :=
  if strip_str out != "" then strip_str out else strip_str err

/-- The acceptance test of the `find_python_binary` loop (`installer.py`,
lines 209-228): executable, ran without exception, and the requested
version string occurs in the reported output. -/
def qualifies (version : String) (c : Candidate) : Bool :=
  c.executable &&
    (match c.runOut with
     | some (o, e) => str_in version (version_output o e)
     | none => false)

/-- The candidate loop of `find_python_binary` (`installer.py`, lines
209-230): return the first qualifying candidate, else abort. -/
def find_python_binary_go (version : String) :
    List Candidate → Except InstallAbort Candidate
  | [] => .error ⟨"No valid Python executable found in staged install"⟩
  | c :: rest =>
    if qualifies version c then .ok c else find_python_binary_go version rest

/-- `Installer.find_python_binary` (`installer.py`, lines 198-230).  `sp` is
the staged prefix path (so `sp ++ "/bin"` is `bin_dir`); `binDirExists`
models `bin_dir.exists()`; `cands` is the sorted `bin_dir.glob("python3.*")`
enumeration. -/
def find_python_binary (version sp : String) (binDirExists : Bool)
    (cands : List Candidate) : Except InstallAbort Candidate :=
  if binDirExists = false then
    .error ⟨"Missing bin directory: " ++ sp ++ "/bin"⟩
  else if cands.isEmpty then
    .error ⟨"No python3.x executable found in staged install"⟩
  else find_python_binary_go version cands

/-- One path of the containment walk (`installer.py`, lines 244-253): its
path relative to the staged prefix and the result of `path.resolve()` —
`none` models the `FileNotFoundError` of a broken symlink, `some r` the
resolved absolute path. -/
structure VPath where
  rel : List String
  resolved : Option String
  deriving DecidableEq, Repr

/-- The absolute rendering of a walked path, as interpolated into the abort
messages of `verify_staging`. -/
def vpath_str (sp : String) (p : VPath) : String :=
  sp ++ "/" ++ join_sep "/" p.rel

/-- The containment and symlink-safety loop of `verify_staging`
(`installer.py`, lines 244-253): abort on the first path whose resolution
errors, or whose resolved path fails `str(resolved).startswith(str(sp))`. -/
def containment_check (sp : String) : List VPath → Except InstallAbort Unit
  | [] => .ok ()
  | p :: rest =>
    match p.resolved with
    | none => .error ⟨"Broken symlink: " ++ vpath_str sp p⟩
    | some r =>
      if str_starts r sp then containment_check sp rest
      else .error ⟨"Path escapes install prefix: " ++ vpath_str sp p ++ " → " ++ r⟩

/-- The staged tree as `verify_staging` observes it: whether the staged
prefix exists, whether its `bin` subdirectory exists, the sorted binary
candidates inside it, and the `rglob("*")` walk with each path's
resolution. -/
structure VerifyInput where
  stagedTreePresent : Bool
  binDirExists : Bool
  cands : List Candidate
  paths : List VPath
  deriving DecidableEq, Repr

/-- `Installer.verify_staging` (`installer.py`, lines 232-253): staged
prefix presence, binary verification, then the containment walk. -/
def verify_staging (home version : String) (v : VerifyInput) :
    Except InstallAbort Unit :=
  if v.stagedTreePresent = false then
    .error ⟨"Staged prefix not found: " ++ staged_prefix_path home version⟩
  else
    match find_python_binary version (staged_prefix_path home version)
        v.binDirExists v.cands with
    | .error e => .error e
    | .ok _ => containment_check (staged_prefix_path home version) v.paths

/-- Spec-side definition, following the specification's words: a resolved
location `r` is beneath the staged prefix `sp` when it is `sp` itself or a
path inside it (that is, extends `sp` past a path separator).  This is the
relation the containment walk is specified to enforce; the source instead
tests the bare string prefix `str_starts r sp`. -/
def beneath_spec (sp r : String) : Bool :=
  r == sp || str_starts r (sp ++ "/")

/-- The manifest enumeration of `write_manifest` (`installer.py`, lines
256-260): absolute paths of every file and symlink (never directories)
under the prefix rooted at `root`, in `rglob` order. -/
def manifest_entries (root : String) (t : Tree) : List String :=
  (t.filter (fun n => n.kind == FKind.file || n.kind == FKind.symlink)).map
    (fun n => root ++ "/" ++ join_sep "/" n.rel)

/-- Effect of `self.manifest_path.write_text(...)` on the prefix tree: the
manifest file is created when absent, overwritten in place when present. -/
def add_manifest_node (t : Tree) : Tree :=
  if has_manifest t then t else t ++ [⟨[".install-manifest"], FKind.file⟩]

/-- External outcomes consumed by `commit_install`: whether the
`mkdir(parents=True, exist_ok=True)` of the install root succeeds (and its
exception text when not), whether the `rename` succeeds (and its exception
text), whether `write_text` of the manifest succeeds (and its exception
text), and whether the best-effort `shutil.rmtree` of the staging root
succeeds. -/
structure CommitEnv where
  mkdirParentOk : Bool
  mkdirErr : String
  renameOk : Bool
  renameErr : String
  manifestWriteOk : Bool
  manifestErr : String
  rmtreeStagingOk : Bool
  deriving DecidableEq, Repr

/-- `Installer.write_manifest` (`installer.py`, lines 255-265): enumerate
files and symlinks under the permanent prefix, then write their absolute
paths, newline-joined with a trailing newline, to the manifest file;
wrap any write failure in an `InstallAbort`. -/
def write_manifest (home version : String) (env : CommitEnv) (s : FsState) :
    Except InstallAbort Unit × FsState :=
  let entries := manifest_entries (install_version_dir home version)
    (s.installed.getD [])
  if env.manifestWriteOk then
    (.ok (), { s with
      manifest_text := some (join_sep "\n" entries ++ "\n"),
      installed := s.installed.map add_manifest_node })
  else
    (.error ⟨"Failed to write manifest: " ++ env.manifestErr⟩, s)

/-- `Installer.commit_install` (`installer.py`, lines 267-292): staged
prefix precondition, permanent-prefix collision recheck, parent `mkdir`
plus atomic `rename` (any exception wrapped as `Commit failed: ...`),
manifest write, then best-effort removal of the staging root with errors
suppressed. -/
def commit_install (home version : String) (env : CommitEnv) (s : FsState) :
    Except InstallAbort Unit × FsState :=
  match s.staged with
  | none => (.error ⟨"Nothing to commit: staged prefix missing"⟩, s)
  | some t =>
    match s.installed with
    | some _ =>
      (.error ⟨"Install prefix already exists: "
        ++ install_version_dir home version⟩, s)
    | none =>
      if env.mkdirParentOk = false then
        (.error ⟨"Commit failed: " ++ env.mkdirErr⟩, s)
      else if env.renameOk = false then
        (.error ⟨"Commit failed: " ++ env.renameErr⟩, s)
      else
        let s1 : FsState := { s with staged := none, installed := some t }
        match write_manifest home version env s1 with
        | (.ok _, s2) =>
          (.ok (), { s2 with
            staging_root_exists := !env.rmtreeStagingOk && s2.staging_root_exists })
        | (.error e, s2) => (.error e, s2)

/-- One entry of the installation root as the registry of `sevpy.py`
observes it: its directory name, whether it is a directory, the sorted
`bin/python3.*` candidates when a `bin` subdirectory exists (`none` when it
does not), and whether the prefix holds a manifest file — a fact the
registry never consults. -/
structure RegEntry where
  name : String
  isDir : Bool
  binDir : Option (List Candidate)
  hasManifest : Bool
  deriving DecidableEq, Repr

/-- `entry.name.removeprefix("python-")` (`sevpy.py`, line 260), applied
under the guard that the name starts with `python-`: drop its seven
characters. -/
def version_of (e : RegEntry) : String := ⟨e.name.data.drop 7⟩

/-- The entry filter of `find_installed_versions` (`sevpy.py`, lines
254-258): directories whose name starts with `python-`. -/
def managed (e : RegEntry) : Bool :=
  e.isDir && str_starts e.name "python-"

/-- The per-version record `find_installed_versions` builds (`sevpy.py`,
lines 263-270). -/
structure VersionInfo where
  version : String
  python : Option Candidate
  runtimeVersion : Option String
  valid : Bool
  activated : Bool
  error : Option String
  deriving DecidableEq, Repr

/-- The stdout of a candidate's version-report run, empty when the run
raised. -/
def candidate_out (c : Candidate) : String :=
  match c.runOut with
  | some (o, _) => o
  | none => ""

/-- The candidate loop of `find_installed_versions` (`sevpy.py`, lines
284-316): skip non-executables silently, record the exception message and
continue on a failed run, stop at the first candidate whose stripped stdout
equals the directory-derived version (clearing the error), and otherwise
continue without touching the error.  Returns the accepted candidate, if
any, with the final error field. -/
def scan_candidates (version : String) (err : Option String) :
    List Candidate → Option Candidate × Option String
  | [] => (none, err)
  | c :: rest =>
    if c.executable = false then scan_candidates version err rest
    else
      match c.runOut with
      | none => scan_candidates version (some c.errMsg) rest
      | some (o, _) =>
        if strip_str o == version then (some c, none)
        else scan_candidates version err rest

/-- The test under which the registry loop accepts a candidate: executable,
ran without exception, and stripped stdout exactly equal to the
directory-derived version string. -/
def exact_match (version : String) (c : Candidate) : Bool :=
  c.executable &&
    (match c.runOut with
     | some (o, _) => strip_str o == version
     | none => false)

/-- The classification `find_installed_versions` computes for one managed
entry (`sevpy.py`, lines 260-321).  `act` models `check_activated`, an
external query of the shell command search path. -/
def entry_info (act : String → Bool) (e : RegEntry) : VersionInfo :=
  let version := version_of e
  match e.binDir with
  | none => ⟨version, none, none, false, act version, some "missing bin directory"⟩
  | some cands =>
    if cands.isEmpty then
      ⟨version, none, none, false, act version,
        some "no python3.x executable found"⟩
    else
      match scan_candidates version none cands with
      | (some c, _) =>
        ⟨version, some c, some (strip_str (candidate_out c)), true,
          act version, none⟩
      | (none, err) => ⟨version, none, none, false, act version, err⟩

/-- `find_installed_versions` (`sevpy.py`, lines 247-323): classify every
managed entry of the installation root, keyed by its derived version. -/
def find_installed_versions (act : String → Bool) (root : List RegEntry) :
    List (String × VersionInfo) :=
  (root.filter managed).map (fun e => (version_of e, entry_info act e))

/-- `remove_broken` (`sevpy.py`, lines 343-361): for every registry entry
classified invalid, attempt `shutil.rmtree` of its prefix (`rmOk` tells
which removals succeed; failures are reported and leave the prefix); valid
prefixes and entries the registry does not list are never touched. -/
def remove_broken (act : String → Bool) (rmOk : String → Bool)
    (root : List RegEntry) : List RegEntry :=
  root.filter (fun e =>
    if managed e then (entry_info act e).valid || !(rmOk e.name) else true)

deriving instance DecidableEq for Except

/-- Sample candidate whose version report contains the requested version. -/
def cand_ok : Candidate := ⟨"python3.12", true, some ("Python 3.12.2", ""), ""⟩

/-- Sample candidate reporting a version that does not contain `3.12.2`. -/
def cand_bad : Candidate := ⟨"python3.11", true, some ("Python 3.12.1", ""), ""⟩

/-- Sample candidate whose stripped stdout equals `3.12.2` exactly. -/
def cand_exact : Candidate := ⟨"python3.12", true, some ("3.12.2", ""), ""⟩

/-- Sample candidate reporting `3.12.1` where `3.12.2` is derived from the
directory name. -/
def cand_wrong : Candidate := ⟨"python3.12", true, some ("3.12.1", ""), ""⟩

/-- Sample state: build done, staging root present, a staged tree holding
one binary, no permanent prefix yet. -/
def fs0 : FsState :=
  ⟨true, true, some [⟨["bin", "python3.12"], FKind.file⟩], none, none⟩

/-- Sample state: the permanent prefix exists and holds a manifest file. -/
def fs_installed : FsState :=
  ⟨true, false, none, some [⟨[".install-manifest"], FKind.file⟩], none⟩

/-- Sample state: staging root exists but the build Makefile is missing. -/
def fs_nomake : FsState := ⟨false, true, none, none, none⟩

/-- Sample state: Makefile present and staging root already existing. -/
def fs_stage : FsState := ⟨true, true, none, none, none⟩

/-- Sample staged tree that already contains a file at the manifest's own
relative path. -/
def self_tree : Tree :=
  [⟨[".install-manifest"], FKind.file⟩, ⟨["bin", "python3.12"], FKind.file⟩]

/-- Sample state staging `self_tree`. -/
def fs_self : FsState := ⟨true, true, some self_tree, none, none⟩

/-- Commit environment in which every external effect succeeds. -/
def env_ok : CommitEnv := ⟨true, "", true, "", true, "", true⟩

/-- Commit environment in which the rename raises `Permission denied`. -/
def env_rename_fail : CommitEnv :=
  ⟨true, "", false, "Permission denied", true, "", true⟩

/-- Commit environment in which the manifest write raises `disk full`. -/
def env_manifest_fail : CommitEnv := ⟨true, "", true, "", false, "disk full", true⟩

/-- Staging environment in which every external effect succeeds. -/
def stage_env0 : StageEnv := ⟨true, true, []⟩

/-- A resolved location that extends the staged prefix string without a
separator: a sibling directory whose name has the staged prefix as a proper
string prefix. -/
def esc_resolved : String := staged_prefix_path "/h" "3.12.2" ++ "0/pwn"

/-- Verification input holding a single symlink that resolves to
`esc_resolved`, outside the staged prefix. -/
def esc_input : VerifyInput :=
  ⟨true, true, [cand_ok], [⟨["lib", "evil"], some esc_resolved⟩]⟩

/-- Verification input whose first walked path escapes to `/etc/passwd` and
whose second is a broken symlink. -/
def mask_input : VerifyInput :=
  ⟨true, true, [cand_ok], [⟨["a"], some "/etc/passwd"⟩, ⟨["b"], none⟩]⟩

/-- Verification input whose first walked path resolves to the staged
prefix itself and whose second is a broken symlink. -/
def mask_w_input : VerifyInput :=
  ⟨true, true, [cand_ok],
    [⟨["ok"], some (staged_prefix_path "/h" "3.12.2")⟩, ⟨["bad"], none⟩]⟩

/-- Registry entry whose sole candidate reports its version exactly, with
no manifest file in the prefix. -/
def valid_entry : RegEntry := ⟨"python-3.12.2", true, some [cand_exact], false⟩

/-- Registry entry with a `bin` directory but no `python3.*` candidate. -/
def broken_entry : RegEntry := ⟨"python-3.11.1", true, some [], false⟩

/-- Registry entry whose sole candidate runs fine but reports `3.12.1`
while the directory name derives `3.12.2`. -/
def wrongver_entry : RegEntry := ⟨"python-3.12.2", true, some [cand_wrong], true⟩

/-- Activation oracle reporting nothing on the command search path. -/
def actF : String → Bool := fun _ => false

/-- Removal oracle under which every `shutil.rmtree` succeeds. -/
def rmT : String → Bool := fun _ => true

/-- Left cancellation for string append, via the underlying character
lists. -/
theorem string_append_cancel {a b c : String} (h : a ++ b = a ++ c) : b = c := by
  have hd : (a ++ b).data = (a ++ c).data := by rw [h]
  rw [String.data_append, String.data_append] at hd
  exact String.ext (List.append_cancel_left hd)

/-- C1: starting from a state with a staged prefix and no permanent prefix,
a failing rename makes `commit_install` abort with `Commit failed: ...` and
leaves the filesystem state — in particular the absent permanent prefix,
the staging root, and the staged tree — exactly as it was. -/
theorem commit_rename_failure_all_or_nothing
    (home version : String) (env : CommitEnv) (s : FsState) (t : Tree)
    (hs : s.staged = some t) (hi : s.installed = none)
    (hm : env.mkdirParentOk = true) (hr : env.renameOk = false) :
    (commit_install home version env s).1 =
      Except.error ⟨"Commit failed: " ++ env.renameErr⟩ ∧
    (commit_install home version env s).2 = s ∧
    (commit_install home version env s).2.installed = none := by
  simp [commit_install, hs, hi, hm, hr]

/-- Witness for C1 at a concrete state and environment. -/
theorem commit_rename_failure_all_or_nothing_witness :
    (commit_install "/h" "3.12.2" env_rename_fail fs0).1 =
      Except.error ⟨"Commit failed: " ++ env_rename_fail.renameErr⟩ ∧
    (commit_install "/h" "3.12.2" env_rename_fail fs0).2 = fs0 ∧
    (commit_install "/h" "3.12.2" env_rename_fail fs0).2.installed = none :=
  commit_rename_failure_all_or_nothing "/h" "3.12.2" env_rename_fail fs0
    [⟨["bin", "python3.12"], FKind.file⟩] rfl rfl rfl rfl

/-- C2: when the permanent prefix directory exists,
`check_prefix_collision` aborts — `already installed` when the directory
holds a manifest file, `unmanaged` when not — and `commit_install` also
aborts; neither changes the state, so the existing directory is never
written to, removed, or overwritten. -/
theorem prefix_collision_never_overwrites
    (home version : String) (env : CommitEnv) (s : FsState) (t : Tree)
    (hi : s.installed = some t) :
    check_prefix_collision home version s =
      Except.error ⟨if has_manifest t then
          "Python " ++ version ++ " is already installed at "
            ++ install_version_dir home version
        else
          "Installation directory exists but is unmanaged: "
            ++ install_version_dir home version⟩ ∧
    (∃ e, (commit_install home version env s).1 = Except.error e) ∧
    (commit_install home version env s).2 = s := by
  refine ⟨?_, ?_, ?_⟩
  · cases h : has_manifest t <;> simp [check_prefix_collision, hi, h]
  · cases hst : s.staged <;> simp [commit_install, hst, hi]
  · cases hst : s.staged <;> simp [commit_install, hst, hi]

/-- Witness for C2 at a concrete state holding a managed prefix. -/
theorem prefix_collision_never_overwrites_witness :
    check_prefix_collision "/h" "3.12.2" fs_installed =
      Except.error ⟨"Python 3.12.2 is already installed at "
        ++ install_version_dir "/h" "3.12.2"⟩ ∧
    (commit_install "/h" "3.12.2" env_ok fs_installed).2 = fs_installed := by
  have h := prefix_collision_never_overwrites "/h" "3.12.2" env_ok fs_installed
    [⟨[".install-manifest"], FKind.file⟩] rfl
  exact ⟨h.1, h.2.2⟩

/-- C3: the containment walk tests `str(resolved).startswith(str(sp))` with
no trailing separator, so a symlink resolving into a sibling directory whose
name extends the staged prefix string — here `...python-3.12.20/pwn` under
staged prefix `...python-3.12.2` — passes the check and `verify_staging`
succeeds, although the resolved location is not beneath the staged prefix.
This contradicts the claim that verification succeeds only when every path
resolves beneath the staged prefix. -/
theorem verify_staging_escape_accepted :
    verify_staging "/h" "3.12.2" esc_input = Except.ok () ∧
    esc_input.paths.map VPath.resolved = [some esc_resolved] ∧
    beneath_spec (staged_prefix_path "/h" "3.12.2") esc_resolved = false := by
  refine ⟨rfl, rfl, by decide⟩

/-- A prefix of the containment walk consisting of paths that resolve and
pass the source's string-prefix test is skipped without effect. -/
theorem containment_check_skip (sp : String) (pre rest : List VPath)
    (hpre : ∀ q ∈ pre, ∃ r, q.resolved = some r ∧ str_starts r sp = true) :
    containment_check sp (pre ++ rest) = containment_check sp rest := by
  induction pre with
  | nil => rfl
  | cons q qs ih =>
    obtain ⟨r, hq, hst⟩ := hpre q (by simp)
    rw [List.cons_append]
    simp only [containment_check, hq, hst, if_true]
    exact ih (fun x hx => hpre x (by simp [hx]))

/-- A successful containment walk visited every path, so none of them had a
failing resolution. -/
theorem containment_check_ok_resolved (sp : String) (ps : List VPath)
    (h : containment_check sp ps = Except.ok ()) :
    ∀ q ∈ ps, q.resolved ≠ none := by
  induction ps with
  | nil => intro q hq; cases hq
  | cons q qs ih =>
    intro x hx
    rcases List.mem_cons.mp hx with hx | hx
    · subst hx
      intro hnone
      simp [containment_check, hnone] at h
    · cases hq : q.resolved with
      | none => simp [containment_check, hq] at h
      | some r =>
        simp only [containment_check, hq] at h
        by_cases hst : str_starts r sp = true
        · rw [if_pos hst] at h
          exact ih h x hx
        · rw [if_neg hst] at h
          cases h

/-- C4 (amended): a staged tree containing a broken symlink never passes
`verify_staging`; and when the staged prefix is present, binary
verification succeeds, and every walked path before the broken one resolves
and passes the containment test, the abort is `Broken symlink` naming that
path.  (As stated, the claim fails: an earlier offending path or a failed
binary scan aborts first, with a different message.) -/
theorem broken_symlink_abort_amended
    (home version : String) (v : VerifyInput) (pre post : List VPath) (p : VPath)
    (hv : v.stagedTreePresent = true)
    (hbin : ∃ c, find_python_binary version (staged_prefix_path home version)
      v.binDirExists v.cands = Except.ok c)
    (hsplit : v.paths = pre ++ p :: post)
    (hb : p.resolved = none)
    (hpre : ∀ q ∈ pre, ∃ r, q.resolved = some r ∧
      str_starts r (staged_prefix_path home version) = true) :
    verify_staging home version v =
      Except.error ⟨"Broken symlink: "
        ++ vpath_str (staged_prefix_path home version) p⟩ ∧
    ∀ w : VerifyInput, (∃ q ∈ w.paths, q.resolved = none) →
      verify_staging home version w ≠ Except.ok () := by
  constructor
  · obtain ⟨c, hc⟩ := hbin
    simp [verify_staging, hv, hc, hsplit, containment_check_skip _ _ _ hpre,
      containment_check, hb]
  · intro w ⟨q, hqmem, hqnone⟩ hok
    by_cases hw : w.stagedTreePresent = true
    · simp only [verify_staging, hw, Bool.true_eq_false, if_false] at hok
      cases hfb : find_python_binary version (staged_prefix_path home version)
          w.binDirExists w.cands with
      | error e => simp [hfb] at hok
      | ok c =>
        simp only [hfb] at hok
        exact containment_check_ok_resolved _ _ hok q hqmem hqnone
    · rw [Bool.not_eq_true] at hw
      simp [verify_staging, hw] at hok

/-- Witness for C4 at a concrete input: the first walked path resolves to
the staged prefix itself, the second is broken, and the abort names the
second. -/
theorem broken_symlink_abort_amended_witness :
    verify_staging "/h" "3.12.2" mask_w_input =
      Except.error ⟨"Broken symlink: "
        ++ vpath_str (staged_prefix_path "/h" "3.12.2") ⟨["bad"], none⟩⟩ :=
  (broken_symlink_abort_amended "/h" "3.12.2" mask_w_input
    [⟨["ok"], some (staged_prefix_path "/h" "3.12.2")⟩] [] ⟨["bad"], none⟩
    rfl ⟨cand_ok, rfl⟩ rfl rfl
    (by
      intro q hq
      rcases List.mem_singleton.mp hq with rfl
      exact ⟨staged_prefix_path "/h" "3.12.2", rfl, by decide⟩)).1

/-- Counterexample to C4 as stated: this staged tree contains a broken
symlink (its second walked path), yet `verify_staging` aborts with `Path
escapes install prefix` for the earlier escaping path, not with a `Broken
symlink` abort naming the broken one. -/
theorem broken_symlink_masked_by_escape :
    mask_input.paths.map VPath.resolved = [some "/etc/passwd", none] ∧
    verify_staging "/h" "3.12.2" mask_input =
      Except.error ⟨"Path escapes install prefix: "
        ++ vpath_str (staged_prefix_path "/h" "3.12.2") ⟨["a"], some "/etc/passwd"⟩
        ++ " → /etc/passwd"⟩ ∧
    verify_staging "/h" "3.12.2" mask_input ≠
      Except.error ⟨"Broken symlink: "
        ++ vpath_str (staged_prefix_path "/h" "3.12.2") ⟨["b"], none⟩⟩ := by
  refine ⟨rfl, rfl, by decide⟩

/-- The candidate loop returns exactly what `List.find?` under `qualifies`
selects, or the `No valid Python executable` abort when nothing qualifies. -/
theorem find_python_binary_go_find (version : String) (cs : List Candidate) :
    find_python_binary_go version cs =
      (match cs.find? (qualifies version) with
       | some c => Except.ok c
       | none =>
         Except.error ⟨"No valid Python executable found in staged install"⟩) := by
  induction cs with
  | nil => rfl
  | cons c rest ih =>
    by_cases h : qualifies version c
    · simp [find_python_binary_go, h, List.find?_cons]
    · simp only [Bool.not_eq_true] at h
      simp [find_python_binary_go, h, List.find?_cons, ih]

/-- C5 (amended): over a nonempty candidate list with the `bin` directory
present, `find_python_binary` returns a candidate exactly when it is the
first qualifying one — executable, ran without exception, reported output
containing the requested version — so a candidate whose output lacks the
version string is never returned; when the nonempty list holds no
qualifying candidate the abort is `No valid Python executable found in
staged install`.  (As stated, the claim fails at the empty candidate list,
which aborts earlier with a different message.) -/
theorem find_python_binary_first_qualifying
    (version sp : String) (cs : List Candidate) (hne : cs ≠ []) :
    (∀ c, find_python_binary version sp true cs = Except.ok c ↔
      cs.find? (qualifies version) = some c) ∧
    (cs.find? (qualifies version) = none →
      find_python_binary version sp true cs =
        Except.error ⟨"No valid Python executable found in staged install"⟩) ∧
    (∀ c, find_python_binary version sp true cs = Except.ok c →
      qualifies version c = true) := by
  have hemp : cs.isEmpty = false := by
    cases cs with
    | nil => exact absurd rfl hne
    | cons a l => rfl
  have hfb : find_python_binary version sp true cs =
      find_python_binary_go version cs := by
    simp [find_python_binary, hemp]
  refine ⟨?_, ?_, ?_⟩
  · intro c
    rw [hfb, find_python_binary_go_find]
    cases hfind : cs.find? (qualifies version) <;> simp
  · intro hnone
    rw [hfb, find_python_binary_go_find, hnone]
  · intro c hc
    rw [hfb, find_python_binary_go_find] at hc
    cases hfind : cs.find? (qualifies version) with
    | none => rw [hfind] at hc; cases hc
    | some d =>
      rw [hfind] at hc
      cases hc
      exact List.find?_some hfind

/-- Witness for C5: with a non-matching candidate sorted first, the scan
skips it and returns the later matching one. -/
theorem find_python_binary_first_qualifying_witness :
    find_python_binary "3.12.2" "/sp" true [cand_bad, cand_ok] =
      Except.ok cand_ok :=
  ((find_python_binary_first_qualifying "3.12.2" "/sp" [cand_bad, cand_ok]
    (by simp)).1 cand_ok).mpr (by decide)

/-- Counterexample to C5 as stated: with an empty candidate list no
candidate qualifies, yet the abort message is `No python3.x executable
found in staged install`, not the claimed `No valid Python executable found
in staged install`. -/
theorem find_python_binary_empty_candidates_message :
    find_python_binary "3.12.2" "/sp" true [] =
      Except.error ⟨"No python3.x executable found in staged install"⟩ ∧
    find_python_binary "3.12.2" "/sp" true [] ≠
      Except.error ⟨"No valid Python executable found in staged install"⟩ := by
  refine ⟨rfl, by decide⟩

/-- C6 (amended): whenever the staging directory already exists,
`staged_install` aborts with the state — in particular the pre-existing
staging contents — unchanged, before any install step runs; the abort
message is `already exists` whenever the Makefile sanity check passes.
(As stated, the claim fails: with the Makefile missing, the earlier guard
aborts with a different message.) -/
theorem staged_install_existing_staging_aborts
    (home version : String) (env : StageEnv) (tk : Bool) (s : FsState)
    (hex : s.staging_root_exists = true) :
    (∃ e, (staged_install home version env tk s).1 = Except.error e) ∧
    (staged_install home version env tk s).2 = s ∧
    (s.makefile_exists = true →
      (staged_install home version env tk s).1 =
        Except.error ⟨"Staging directory already exists: "
          ++ staging_dir home version⟩) := by
  by_cases hm : s.makefile_exists = true
  · simp [staged_install, hex, hm]
  · rw [Bool.not_eq_true] at hm
    simp [staged_install, hex, hm]

/-- Witness for C6 at a concrete state with Makefile present and staging
root existing. -/
theorem staged_install_existing_staging_aborts_witness :
    (staged_install "/h" "3.12.2" stage_env0 true fs_stage).1 =
      Except.error ⟨"Staging directory already exists: "
        ++ staging_dir "/h" "3.12.2"⟩ ∧
    (staged_install "/h" "3.12.2" stage_env0 true fs_stage).2 = fs_stage :=
  have h := staged_install_existing_staging_aborts "/h" "3.12.2" stage_env0
    true fs_stage rfl
  ⟨h.2.2 rfl, h.2.1⟩

/-- Counterexample to C6 as stated: the staging directory exists, yet with
the Makefile missing the abort is `Makefile missing`, not `already
exists`. -/
theorem staged_install_makefile_guard_first :
    fs_nomake.staging_root_exists = true ∧
    (staged_install "/h" "3.12.2" stage_env0 true fs_nomake).1 =
      Except.error ⟨"Makefile missing — did you run configure()?"⟩ ∧
    (staged_install "/h" "3.12.2" stage_env0 true fs_nomake).1 ≠
      Except.error ⟨"Staging directory already exists: "
        ++ staging_dir "/h" "3.12.2"⟩ := by
  refine ⟨rfl, rfl, by decide⟩

/-- C7 (amended): in a commit whose rename succeeds, the staging root is
removed (best-effort, errors suppressed) as the final step when the
manifest write also succeeds; but when the manifest write fails, the abort
propagates before the cleanup line and the staging root is left as it was.
(As stated, the claim fails: the removal does not happen regardless of the
manifest outcome.) -/
theorem commit_cleanup_after_manifest
    (home version : String) (env : CommitEnv) (s : FsState) (t : Tree)
    (hs : s.staged = some t) (hi : s.installed = none)
    (hm : env.mkdirParentOk = true) (hr : env.renameOk = true) :
    (env.manifestWriteOk = true →
      (commit_install home version env s).1 = Except.ok () ∧
      (commit_install home version env s).2.staging_root_exists =
        (!env.rmtreeStagingOk && s.staging_root_exists)) ∧
    (env.manifestWriteOk = false →
      (commit_install home version env s).1 =
        Except.error ⟨"Failed to write manifest: " ++ env.manifestErr⟩ ∧
      (commit_install home version env s).2.staging_root_exists =
        s.staging_root_exists) := by
  constructor <;> intro hw <;>
    simp [commit_install, write_manifest, hs, hi, hm, hr, hw]

/-- Witness for C7 in the all-successful case: the staging root is gone
after the commit. -/
theorem commit_cleanup_after_manifest_witness :
    (commit_install "/h" "3.12.2" env_ok fs0).1 = Except.ok () ∧
    (commit_install "/h" "3.12.2" env_ok fs0).2.staging_root_exists =
      (!env_ok.rmtreeStagingOk && fs0.staging_root_exists) :=
  (commit_cleanup_after_manifest "/h" "3.12.2" env_ok fs0
    [⟨["bin", "python3.12"], FKind.file⟩] rfl rfl rfl rfl).1 rfl

/-- Counterexample to C7 as stated: the rename succeeds, the manifest write
fails, and the staging root survives the commit attempt even though its
removal would have succeeded — cleanup is skipped, not attempted. -/
theorem manifest_failure_skips_cleanup :
    (commit_install "/h" "3.12.2" env_manifest_fail fs0).1 =
      Except.error ⟨"Failed to write manifest: disk full"⟩ ∧
    (commit_install "/h" "3.12.2" env_manifest_fail fs0).2.staging_root_exists
      = true ∧
    env_manifest_fail.rmtreeStagingOk = true := by
  refine ⟨rfl, rfl, rfl⟩

/-- C8: `remove_broken` keeps every entry of the installation root that the
registry classifies valid — whether or not it holds a manifest file, which
the classification never consults — and only removes entries that are
managed, classified invalid, and whose removal succeeded; a kept entry is
the unchanged original. -/
theorem remove_broken_never_deletes_valid
    (act rmOk : String → Bool) (root : List RegEntry) :
    (∀ e, e ∈ root → (entry_info act e).valid = true →
      e ∈ remove_broken act rmOk root) ∧
    (∀ e, e ∈ root → e ∉ remove_broken act rmOk root →
      managed e = true ∧ (entry_info act e).valid = false ∧
        rmOk e.name = true) := by
  constructor
  · intro e he hv
    refine List.mem_filter.mpr ⟨he, ?_⟩
    by_cases hmg : managed e = true
    · simp [hmg, hv]
    · rw [Bool.not_eq_true] at hmg
      simp [hmg]
  · intro e he hnot
    have hp : ¬ ((if managed e
        then (entry_info act e).valid || !(rmOk e.name) else true) = true) :=
      fun hp => hnot (List.mem_filter.mpr ⟨he, hp⟩)
    by_cases hmg : managed e = true
    · rw [if_pos hmg] at hp
      simp only [Bool.or_eq_true, Bool.not_eq_true', not_or,
        Bool.not_eq_true, Bool.not_eq_false] at hp
      exact ⟨hmg, hp.1, hp.2⟩
    · rw [Bool.not_eq_true] at hmg
      simp [hmg] at hp

/-- Witness for C8: a prefix whose binary reports its exact version but
which holds no manifest file survives `remove_broken` unchanged, while a
broken sibling is present. -/
theorem remove_broken_never_deletes_valid_witness :
    valid_entry ∈ remove_broken actF rmT [valid_entry, broken_entry] ∧
    valid_entry.hasManifest = false :=
  ⟨(remove_broken_never_deletes_valid actF rmT [valid_entry, broken_entry]).1
    valid_entry (by simp) (by decide), rfl⟩

/-- The accepted candidate of the registry loop is exactly what
`List.find?` under `exact_match` selects. -/
theorem scan_candidates_fst (version : String) (err : Option String)
    (cs : List Candidate) :
    (scan_candidates version err cs).1 = cs.find? (exact_match version) := by
  induction cs generalizing err with
  | nil => rfl
  | cons c rest ih =>
    by_cases hex : c.executable = true
    · cases hro : c.runOut with
      | none =>
        simp [scan_candidates, exact_match, hex, hro, List.find?_cons, ih]
      | some oe =>
        by_cases hveq : strip_str oe.1 == version
        · simp [scan_candidates, exact_match, hex, hro, hveq, List.find?_cons]
        · simp only [Bool.not_eq_true] at hveq
          simp [scan_candidates, exact_match, hex, hro, hveq,
            List.find?_cons, ih]
    · rw [Bool.not_eq_true] at hex
      simp [scan_candidates, exact_match, hex, List.find?_cons, ih]

/-- For an entry with a nonempty candidate list, the recorded binary is the
first exact match and validity is its presence. -/
theorem entry_info_fields (act : String → Bool) (e : RegEntry)
    (cands : List Candidate) (hbd : e.binDir = some cands)
    (hne : cands.isEmpty = false) :
    (entry_info act e).python = cands.find? (exact_match (version_of e)) ∧
    (entry_info act e).valid =
      (cands.find? (exact_match (version_of e))).isSome := by
  have hfind := scan_candidates_fst (version_of e) none cands
  simp only [entry_info, hbd, hne, Bool.false_eq_true, if_false]
  rcases hscan : scan_candidates (version_of e) none cands with ⟨fst, snd⟩
  rw [hscan] at hfind
  cases fst with
  | some c => rw [← hfind]; exact ⟨rfl, rfl⟩
  | none => rw [← hfind]; exact ⟨rfl, rfl⟩

/-- C9 (amended): a managed entry appears in `find_installed_versions`
keyed by its directory-derived version; it is marked valid exactly when its
`bin` directory exists and holds a candidate that is executable and whose
stripped reported version equals that derived version (string equality, no
substring or prefix match); and the recorded binary is the first such
candidate in sorted order.  (As stated, the claim fails: an invalid entry
is not always marked with an error reason — the error field can stay
empty.) -/
theorem registry_valid_iff_exact_match
    (act : String → Bool) (e : RegEntry) (hm : managed e = true) :
    ((version_of e, entry_info act e) ∈ find_installed_versions act [e]) ∧
    ((entry_info act e).valid = true ↔
      ∃ cands c, e.binDir = some cands ∧ c ∈ cands ∧
        exact_match (version_of e) c = true) ∧
    (∀ cands, e.binDir = some cands →
      (entry_info act e).python =
        cands.find? (exact_match (version_of e))) := by
  refine ⟨by simp [find_installed_versions, hm], ?_, ?_⟩
  · cases hbd : e.binDir with
    | none =>
      simp only [entry_info, hbd]
      constructor
      · intro h; cases h
      · rintro ⟨cands, c, hc, -, -⟩; cases hc
    | some cands =>
      by_cases hemp : cands.isEmpty = true
      · have hnil : cands = [] := List.isEmpty_iff.mp hemp
        subst hnil
        simp only [entry_info, hbd, List.isEmpty_nil, if_true]
        constructor
        · intro h; cases h
        · rintro ⟨cands2, c, hc, hmem, -⟩
          injection hc with hc
          subst hc
          cases hmem
      · have hne : cands.isEmpty = false := by
          rwa [Bool.not_eq_true] at hemp
        rw [(entry_info_fields act e cands hbd hne).2]
        constructor
        · intro hsome
          obtain ⟨c, hmem, hmatch⟩ := List.find?_isSome.mp hsome
          exact ⟨cands, c, rfl, hmem, hmatch⟩
        · rintro ⟨cands2, c, hc, hmem, hmatch⟩
          injection hc with hc
          subst hc
          exact List.find?_isSome.mpr ⟨c, hmem, hmatch⟩
  · intro cands hbd
    by_cases hemp : cands.isEmpty = true
    · have hnil : cands = [] := List.isEmpty_iff.mp hemp
      subst hnil
      simp [entry_info, hbd]
    · have hne : cands.isEmpty = false := by
        rwa [Bool.not_eq_true] at hemp
      exact (entry_info_fields act e cands hbd hne).1

/-- Witness for C9: the exact-match entry without manifest is classified
valid with its sole candidate recorded as the first match. -/
theorem registry_valid_iff_exact_match_witness :
    (entry_info actF valid_entry).valid = true ∧
    (entry_info actF valid_entry).python =
      [cand_exact].find? (exact_match (version_of valid_entry)) :=
  ⟨((registry_valid_iff_exact_match actF valid_entry (by decide)).2.1).mpr
    ⟨[cand_exact], cand_exact, rfl, by simp, by decide⟩,
   (registry_valid_iff_exact_match actF valid_entry (by decide)).2.2
    [cand_exact] rfl⟩

/-- Counterexample to C9 as stated: an entry whose sole candidate runs fine
but reports `3.12.1` against directory version `3.12.2` is marked invalid
with `error = none` — no error reason is recorded. -/
theorem registry_invalid_without_error_reason :
    (entry_info actF wrongver_entry).valid = false ∧
    (entry_info actF wrongver_entry).error = none ∧
    find_installed_versions actF [wrongver_entry] =
      [("3.12.2", entry_info actF wrongver_entry)] := by
  refine ⟨rfl, rfl, rfl⟩

/-- C10 (amended): a successful commit of a staged tree holding no entry at
the manifest's own relative path writes a manifest whose text is exactly
the newline-joined absolute paths of the files and symlinks present at
enumeration time, with a trailing newline, and the manifest's own path is
not among them.  (As stated, the claim fails: a staged tree that already
contains a file at the manifest path gets that path listed.) -/
theorem manifest_excludes_self_when_absent
    (home version : String) (env : CommitEnv) (s : FsState) (t : Tree)
    (hs : s.staged = some t) (hi : s.installed = none)
    (hm : env.mkdirParentOk = true) (hr : env.renameOk = true)
    (hw : env.manifestWriteOk = true)
    (hno : ∀ n ∈ t, join_sep "/" n.rel ≠ ".install-manifest") :
    (commit_install home version env s).1 = Except.ok () ∧
    (commit_install home version env s).2.manifest_text =
      some (join_sep "\n"
        (manifest_entries (install_version_dir home version) t) ++ "\n") ∧
    manifest_path home version ∉
      manifest_entries (install_version_dir home version) t := by
  refine ⟨?_, ?_, ?_⟩
  · simp [commit_install, write_manifest, hs, hi, hm, hr, hw]
  · simp [commit_install, write_manifest, hs, hi, hm, hr, hw]
  · intro hmem
    simp only [manifest_entries, List.mem_map, List.mem_filter] at hmem
    obtain ⟨n, ⟨hn_mem, -⟩, heq⟩ := hmem
    have heq2 : install_version_dir home version ++ "/"
        ++ join_sep "/" n.rel =
        install_version_dir home version ++ "/" ++ ".install-manifest" := by
      rw [heq]
      rw [String.append_assoc]
      rfl
    rw [String.append_assoc, String.append_assoc] at heq2
    exact hno n hn_mem (string_append_cancel (string_append_cancel heq2))

/-- Witness for C10 at a concrete commit of a tree without a pre-existing
manifest entry. -/
theorem manifest_excludes_self_when_absent_witness :
    (commit_install "/h" "3.12.2" env_ok fs0).1 = Except.ok () ∧
    manifest_path "/h" "3.12.2" ∉
      manifest_entries (install_version_dir "/h" "3.12.2")
        [⟨["bin", "python3.12"], FKind.file⟩] :=
  have h := manifest_excludes_self_when_absent "/h" "3.12.2" env_ok fs0
    [⟨["bin", "python3.12"], FKind.file⟩] rfl rfl rfl rfl rfl
    (by intro n hn; rcases List.mem_singleton.mp hn with rfl; decide)
  ⟨h.1, h.2.2⟩

/-- Counterexample to C10 as stated: committing a staged tree that already
holds a file at `.install-manifest` succeeds, and the written manifest
lists the manifest file's own path. -/
theorem manifest_lists_itself_when_prestaged :
    (commit_install "/h" "3.12.2" env_ok fs_self).1 = Except.ok () ∧
    (commit_install "/h" "3.12.2" env_ok fs_self).2.manifest_text =
      some (join_sep "\n"
        (manifest_entries (install_version_dir "/h" "3.12.2") self_tree)
        ++ "\n") ∧
    manifest_path "/h" "3.12.2" ∈
      manifest_entries (install_version_dir "/h" "3.12.2") self_tree := by
  refine ⟨rfl, rfl, by decide⟩

end Sevpy
